import Mathlib

/-!
Verification development for the PDF form-field inspector
(src/example/assets/getfields.py).

The Python source is shallowly embedded: Python floats become rationals,
Python None becomes Option.none, Python dictionaries of fixed shape become
structures, and Python truthiness (None, the empty string and the empty list
are falsy) is modelled explicitly where the source relies on it (the `or`
fallbacks and the `if rect` / `if not rect` tests).
-/

/-- A raw PDF rectangle value: a list of entries, each entry being the result
of `_as_float` on the raw coordinate (`none` when the value is not numeric). -/
abbrev PyRect := List (Option ℚ)

/-- Python truthiness of an optional string: None and the empty string are falsy. -/
def strTruthy : Option String → Bool
  | none => false
  | some s => s ≠ ""

/-- Python `a or b` on optional strings: yields `a` when truthy, else `b`. -/
def pyOrStr (a b : Option String) : Option String :=
  if strTruthy a then a else b

/-- Python truthiness of an optional list value: None and the empty list are falsy. -/
def rectTruthy : Option PyRect → Bool
  | none => false
  | some l => !l.isEmpty

/-- Python `a or b` on optional rect values. -/
def pyOrRect (a b : Option PyRect) : Option PyRect :=
  if rectTruthy a then a else b

/-- Round half to even on rationals, the behaviour of Python `round` at the
midpoint; embeds the integer-grid part of `round(float(value), 3)`. -/
def roundHalfEven (q : ℚ) : ℤ :=
  if q - ⌊q⌋ < 1/2 then ⌊q⌋
  else if q - ⌊q⌋ > 1/2 then ⌊q⌋ + 1
  else if 2 ∣ ⌊q⌋ then ⌊q⌋ else ⌊q⌋ + 1

/-- Embeds `round(value, 3)`: round to 3 decimal places. -/
def round3 (q : ℚ) : ℚ := (roundHalfEven (q * 1000) : ℚ) / 1000

/-- Embeds `_format_number`: None passes through, numbers are rounded to 3 decimals. -/
def _format_number (v : Option ℚ) : Option ℚ := v.map round3

/-- Embeds `_normalise_name`: None passes through; a leading slash character is
stripped (`text[1:] if text.startswith(chr(47)) else text`), phrased on the
character list of the string. -/
def _normalise_name : Option String → Option String
  | none => none
  | some v =>
    some (match v.data with
      | c :: rest => if c = '/' then String.mk rest else v
      | [] => v)

/-- Embeds `FIELD_TYPE_MAP` as an association list. -/
def FIELD_TYPE_MAP : List (String × String) :=
  [("Tx", "text"), ("Sig", "signature"), ("Btn", "check"), ("Ch", "choice"), ("Rd", "radio")]

/-- Embeds `FIELD_TYPE_MAP.get(field_type, field_type)`: a None key is absent
from the dict so the default (the key itself, i.e. None) is returned; a known
code maps to its label; an unknown code passes through unchanged. -/
def fieldTypeMapGet : Option String → Option String
  | none => none
  | some s =>
    match FIELD_TYPE_MAP.lookup s with
    | some v => some v
    | none => some s

/-- A corner point of a rectangle, with nullable coordinates as in the source dicts. -/
structure Point where
  x : Option ℚ
  y : Option ℚ
deriving DecidableEq

/-- Embeds the dict returned by `_resolve_rect`. -/
structure RectInfo where
  top_left : Point
  top_right : Point
  bottom_left : Point
  bottom_right : Point
  width : Option ℚ
  height : Option ℚ
deriving DecidableEq

def nullPoint : Point := ⟨none, none⟩

/-- The all-null RectInfo returned for an absent or malformed rect. -/
def nullRectInfo : RectInfo :=
  ⟨nullPoint, nullPoint, nullPoint, nullPoint, none, none⟩

/-- Embeds `_resolve_rect`. The guard mirrors `if not rect or len(rect) != 4`
(None and the empty list are falsy). Entries already carry the `_as_float`
coercion, so the `rect[i]` lookups read the optional rationals directly. -/
def _resolve_rect : Option PyRect → RectInfo
  | none => nullRectInfo
  | some r =>
    if r.isEmpty = true ∨ r.length ≠ 4 then nullRectInfo
    else
      let left := r.getD 0 none
      let bottom := r.getD 1 none
      let right := r.getD 2 none
      let top := r.getD 3 none
      { top_left := ⟨left, top⟩
        top_right := ⟨right, top⟩
        bottom_left := ⟨left, bottom⟩
        bottom_right := ⟨right, bottom⟩
        width := match right, left with
          | some rv, some lv => some (rv - lv)
          | _, _ => none
        height := match top, bottom with
          | some tv, some bv => some (tv - bv)
          | _, _ => none }

/-- The width and height pair used for widget sizes and page metrics. -/
structure Size where
  width : Option ℚ
  height : Option ℚ
deriving DecidableEq

/-- Embeds the `flutterConfig` dict built in the annotation loop. -/
structure FlutterConfig where
  pageIndex : ℕ
  x : Option ℚ
  y : Option ℚ
  width : Option ℚ
  height : Option ℚ
  positionUnit : String := "points"
  sizeUnit : String := "points"
deriving DecidableEq

/-- Embeds the per-annotation widget dict appended to `widgets_by_field`. -/
structure Widget where
  page : Option ℕ
  boundingBox : Option RectInfo
  position : Option Point
  size : Option Size
  flutterConfig : Option FlutterConfig
deriving DecidableEq

/-- The synthetic empty widget used for fields without annotations. The source
dict carries no flutterConfig key; that key is never read for the synthetic
widget, so it is modelled as none. -/
def emptyWidget : Widget := ⟨none, none, none, none, none⟩

/-- Embeds the widget dict built at lines 146-170 of the source, as a function
of its free variables: the 1-based page index, the effective rect, the
resolved rect info, and the page height (a local that the source guards with
`is not None`). The `bottom_left` and `top_left` dicts are always non-empty,
hence truthy, so their guards reduce to the null tests on their entries. -/
def mkWidget (page_index : ℕ) (rect : Option PyRect) (rect_info : RectInfo)
    (page_height : Option ℚ) : Widget :=
  { page := some page_index
    boundingBox := if rectTruthy rect then some rect_info else none
    position := if rectTruthy rect then some rect_info.bottom_left else none
    size := if rectTruthy rect then some ⟨rect_info.width, rect_info.height⟩ else none
    flutterConfig :=
      if rectTruthy rect && page_height.isSome then
        some { pageIndex := page_index - 1
               x := _format_number rect_info.bottom_left.x
               y := match rect_info.top_left.y, page_height with
                 | some ty, some ph => some (round3 (ph - ty))
                 | _, _ => none
               width := _format_number rect_info.width
               height := _format_number rect_info.height }
      else none }

/-- The resolved dictionary of an annotation or of its parent field: the keys
the source reads are the name `/T`, the rect `/Rect`, and the type `/FT`. -/
structure AnnotDict where
  T : Option String := none
  Rect : Option PyRect := none
  FT : Option String := none
deriving DecidableEq

/-- An annotation together with its optional resolved parent dictionary. -/
structure Annot where
  own : AnnotDict
  parent : Option AnnotDict := none
deriving DecidableEq

/-- A page media box, four rational coordinates. -/
structure MediaBox where
  left : ℚ
  bottom : ℚ
  right : ℚ
  top : ℚ
deriving DecidableEq

/-- A page: its media box and its annotation list (`/Annots`, absent means empty). -/
structure Page where
  mediabox : MediaBox
  annots : List Annot := []
deriving DecidableEq

/-- A document: the raw form-field dict of `reader.get_fields()` (modelled by
the only key the source reads from each field entry, `/FT`) and the page list. -/
structure Document where
  rawFields : List (String × Option String) := []
  pages : List Page := []
deriving DecidableEq

/-- Embeds the `field_definitions` comprehension: normalise every raw name and
keep the entries whose normalised name is truthy (present and non-empty). -/
def catalogOf (raw : List (String × Option String)) : List (String × Option String) :=
  raw.filterMap (fun p =>
    match _normalise_name (some p.1) with
    | some m => if m = "" then none else some (m, p.2)
    | none => none)

/-- Embeds `field_definitions.get(field_name, dict()).get(chr(47) ++ "FT")`:
the last binding wins, as in a dict comprehension with duplicate keys. -/
def catalogFT (cat : List (String × Option String)) (name : String) : Option String :=
  match cat.reverse.lookup name with
  | some ft => ft
  | none => none

/-- Embeds `(parent or annotation)`. A resolved parent dict coming from a
`/Parent` reference is modelled as always truthy. -/
def parentDict (a : Annot) : AnnotDict := a.parent.getD a.own

/-- Embeds `annotation.get(T) or (parent.get(T) if parent else None)`. -/
def annotNameObj (a : Annot) : Option String :=
  pyOrStr a.own.T (a.parent.bind (fun p => p.T))

/-- The normalised effective field name of an annotation. -/
def annotName (a : Annot) : Option String := _normalise_name (annotNameObj a)

/-- Embeds `annotation.get(Rect) or (parent.get(Rect) if parent else None)`. -/
def effRect (a : Annot) : Option PyRect :=
  pyOrRect a.own.Rect (a.parent.bind (fun p => p.Rect))

/-- Per-page dimensions from the media box, unrounded. -/
structure PageDims where
  width : ℚ
  height : ℚ
deriving DecidableEq

/-- The accumulating state of the annotation loop: `widgets_by_field` (a
defaultdict of lists, modelled as a function plus its key list in first
insertion order) and `field_types`. -/
structure LoopState where
  widgets : String → List Widget
  fieldTypes : String → Option String
  widgetKeys : List String

def initState : LoopState := ⟨fun _ => [], fun _ => none, []⟩

/-- The value written into `field_types[field_name]` for one annotation:
the own or parent field-type code, falling back to the catalog entry. -/
def widgetType (cat : List (String × Option String)) (a : Annot) (fname : String) :
    Option String :=
  _normalise_name (pyOrStr (parentDict a).FT (catalogFT cat fname))

/-- Embeds one iteration of the inner annotation loop (lines 124-170): skip
when the effective name object is None, otherwise overwrite the field type
and append the widget. -/
def processAnnot (cat : List (String × Option String)) (page_index : ℕ)
    (page_height : ℚ) (st : LoopState) (a : Annot) : LoopState :=
  match annotName a with
  | none => st
  | some fname =>
    let rect := effRect a
    let w := mkWidget page_index rect (_resolve_rect rect) (some page_height)
    { widgets := fun n => if n = fname then st.widgets n ++ [w] else st.widgets n
      fieldTypes := fun n => if n = fname then widgetType cat a fname else st.fieldTypes n
      widgetKeys := if fname ∈ st.widgetKeys then st.widgetKeys else st.widgetKeys ++ [fname] }

/-- The page metrics map together with the loop state. -/
structure DocState where
  metrics : List (ℕ × PageDims)
  st : LoopState

def initDocState : DocState := ⟨[], initState⟩

/-- Page dimensions from the media box: width = right - left, height = top - bottom. -/
def pageDims (p : Page) : PageDims :=
  ⟨p.mediabox.right - p.mediabox.left, p.mediabox.top - p.mediabox.bottom⟩

/-- Embeds the page loop (`enumerate(reader.pages, start=1)`): record the page
metrics, then fold the annotation loop over the page annotations. -/
def processPagesAux (cat : List (String × Option String)) :
    ℕ → List Page → DocState → DocState
  | _, [], s => s
  | i, p :: ps, s =>
    processPagesAux cat (i + 1) ps
      ⟨s.metrics ++ [(i, pageDims p)],
       p.annots.foldl (processAnnot cat i (pageDims p).height) s.st⟩

/-- The whole page loop applied to a document. -/
def processDoc (doc : Document) : DocState :=
  processPagesAux (catalogOf doc.rawFields) 1 doc.pages initDocState

/-- Embeds `_round_point` on an always-truthy point dict. -/
def roundPoint (p : Point) : Point := ⟨_format_number p.x, _format_number p.y⟩

/-- Embeds `_round_size` on an always-truthy size dict. -/
def roundSize (s : Size) : Size := ⟨_format_number s.width, _format_number s.height⟩

/-- Embeds `_round_size` on a page metrics entry (both entries numeric). -/
def roundDims (d : PageDims) : Size := ⟨some (round3 d.width), some (round3 d.height)⟩

/-- Embeds `_round_box_dict` on an always-truthy RectInfo dict. -/
def roundRectInfo (ri : RectInfo) : RectInfo :=
  ⟨roundPoint ri.top_left, roundPoint ri.top_right, roundPoint ri.bottom_left,
   roundPoint ri.bottom_right, _format_number ri.width, _format_number ri.height⟩

/-- Embeds `page_metrics.get(...)` on a 1-based page index. -/
def metricsLookup (ms : List (ℕ × PageDims)) (i : ℕ) : Option PageDims := ms.lookup i

/-- The final per-field output record appended to `results`. -/
structure FieldRecord where
  name : String
  field_type : Option String
  page : Option ℕ
  page_size : Option Size
  bounding_box : Option RectInfo
  position : Option Point
  size : Option Size
deriving DecidableEq

/-- Embeds the body of the aggregation loop (lines 178-225) for one field
name: pick the first widget (or the synthetic empty widget), map the field
type, and round every numeric sub-value at the output boundary. -/
def mkRecord (ms : List (ℕ × PageDims)) (ftypes : String → Option String)
    (wmap : String → List Widget) (fname : String) : FieldRecord :=
  let primary := (wmap fname).headD emptyWidget
  { name := fname
    field_type := fieldTypeMapGet (ftypes fname)
    page := primary.page
    page_size := (primary.page.bind (metricsLookup ms)).map roundDims
    bounding_box := primary.boundingBox.map roundRectInfo
    position := primary.position.map roundPoint
    size := primary.size.map roundSize }

/-- Embeds `sorted(set(field_definitions) | set(widgets_by_field))`. -/
def sortedNames (catKeys wkeys : List String) : List String :=
  List.insertionSort (· ≤ ·) (catKeys ++ wkeys).dedup

/-- The sorted universe of emitted field names of a document. -/
def outputNames (doc : Document) : List String :=
  sortedNames ((catalogOf doc.rawFields).map Prod.fst) (processDoc doc).st.widgetKeys

/-- Embeds the successful body of `get_form_field_positions`: the empty-page
early return, then the aggregation loop over the sorted field names. -/
def fieldPositions (doc : Document) : List FieldRecord :=
  if doc.pages.isEmpty then []
  else
    (outputNames doc).map
      (mkRecord (processDoc doc).metrics (processDoc doc).st.fieldTypes
        (processDoc doc).st.widgets)

/-- The outcome of opening and parsing the PDF, the input of the top-level
try block: the file is missing, some other failure is raised while reading,
or a document is obtained. -/
inductive PdfSource where
  | notFound
  | parseError (msg : String)
  | ok (doc : Document)

/-- Embeds `get_form_field_positions` with its exception handlers: both
handled failures fall through to `return []`. -/
def get_form_field_positions : PdfSource → List FieldRecord
  | .notFound => []
  | .parseError _ => []
  | .ok doc => fieldPositions doc


/-- A field name whose widget list is empty has no recorded field type. -/
def typesOnlyWithWidgets (st : LoopState) : Prop :=
  ∀ n, st.widgets n = [] → st.fieldTypes n = none

/-- Concrete input: an annotation of field f carrying the type code Tx. -/
def annotTx : Annot := ⟨⟨some "f", none, some "/Tx"⟩, none⟩

/-- Concrete input: an annotation of field f with no rect, no type, no parent. -/
def annotBare : Annot := ⟨⟨some "f", none, none⟩, none⟩

/-- Concrete input: an annotation named by the bare slash marker. -/
def annotSlash : Annot := ⟨⟨some "/", none, none⟩, none⟩

/-- Concrete input: a one-page document whose only field lives in the catalog. -/
def docCatalogOnly : Document := ⟨[("A", some "/Tx")], [⟨⟨0, 0, 0, 0⟩, []⟩]⟩

/-- Concrete input: one page, one typed annotation of field f. -/
def docTxFirst : Document := ⟨[], [⟨⟨0, 0, 0, 0⟩, [annotTx]⟩]⟩

/-- Concrete input: one page, the typed annotation followed by a bare one. -/
def docTxThenBare : Document := ⟨[], [⟨⟨0, 0, 0, 0⟩, [annotTx, annotBare]⟩]⟩

/-- Concrete input: one page with the slash-named annotation. -/
def docSlash : Document := ⟨[], [⟨⟨0, 0, 0, 0⟩, [annotSlash]⟩]⟩

/-- Concrete input: a zero-page document with a catalog entry. -/
def docZeroPages : Document := ⟨[("A", some "/Tx")], []⟩

/-- Helper: a rect value of wrong arity resolves to the all-null RectInfo. -/
lemma resolve_rect_wrong_arity (r : PyRect) (h : r.length ≠ 4) :
    _resolve_rect (some r) = nullRectInfo := by
  simp only [_resolve_rect]
  rw [if_pos (Or.inr h)]

/-- Helper: one annotation-loop step on a skipped annotation is the identity. -/
lemma processAnnot_none (cat : List (String × Option String)) (i : ℕ) (ph : ℚ)
    (st : LoopState) (a : Annot) (h : annotName a = none) :
    processAnnot cat i ph st a = st := by
  unfold processAnnot
  rw [h]

/-- Helper: one annotation-loop step on a named annotation, written out. -/
lemma processAnnot_some (cat : List (String × Option String)) (i : ℕ) (ph : ℚ)
    (st : LoopState) (a : Annot) (fname : String) (h : annotName a = some fname) :
    processAnnot cat i ph st a =
      { widgets := fun n =>
          if n = fname then
            st.widgets n ++ [mkWidget i (effRect a) (_resolve_rect (effRect a)) (some ph)]
          else st.widgets n
        fieldTypes := fun n => if n = fname then widgetType cat a fname else st.fieldTypes n
        widgetKeys :=
          if fname ∈ st.widgetKeys then st.widgetKeys else st.widgetKeys ++ [fname] } := by
  unfold processAnnot
  rw [h]

/-- Helper: on the non-empty-pages path the output is the map of the
aggregation body over the sorted names. -/
lemma fieldPositions_eq (doc : Document) (hp : doc.pages ≠ []) :
    fieldPositions doc =
      (outputNames doc).map
        (mkRecord (processDoc doc).metrics (processDoc doc).st.fieldTypes
          (processDoc doc).st.widgets) := by
  unfold fieldPositions
  rw [if_neg]
  simp [hp]

/-- Helper: every output record is the aggregation body at its own name. -/
lemma mem_fieldPositions (doc : Document) (r : FieldRecord) (hr : r ∈ fieldPositions doc) :
    r.name ∈ outputNames doc ∧
      r = mkRecord (processDoc doc).metrics (processDoc doc).st.fieldTypes
            (processDoc doc).st.widgets r.name := by
  by_cases hp : doc.pages = []
  · exfalso
    revert hr
    simp [fieldPositions, hp]
  · rw [fieldPositions_eq doc hp] at hr
    obtain ⟨n, hn, rfl⟩ := List.mem_map.mp hr
    exact ⟨hn, rfl⟩

/-- Helper: membership in the sorted name universe. -/
lemma mem_sortedNames (ck wk : List String) (n : String) :
    n ∈ sortedNames ck wk ↔ n ∈ ck ∨ n ∈ wk := by
  unfold sortedNames
  rw [List.mem_insertionSort, List.mem_dedup, List.mem_append]

/-- Helper: the sorted name universe has no duplicates. -/
lemma sortedNames_nodup (ck wk : List String) : (sortedNames ck wk).Nodup :=
  ((List.perm_insertionSort _ _).nodup_iff).mpr (List.nodup_dedup _)

/-- Helper: the sorted name universe is sorted ascending. -/
lemma sortedNames_sorted (ck wk : List String) :
    List.Sorted (· ≤ ·) (sortedNames ck wk) :=
  List.sorted_insertionSort _ _

/-- Helper: the names of the output records are exactly the sorted universe. -/
lemma fieldPositions_map_name (doc : Document) (hp : doc.pages ≠ []) :
    (fieldPositions doc).map (fun r => r.name) = outputNames doc := by
  rw [fieldPositions_eq doc hp, List.map_map]
  have hcomp :
      ((fun r : FieldRecord => r.name) ∘
        mkRecord (processDoc doc).metrics (processDoc doc).st.fieldTypes
          (processDoc doc).st.widgets) = id :=
    funext fun _ => rfl
  rw [hcomp, List.map_id]

/-- Helper: one annotation step preserves the types-only-with-widgets invariant. -/
lemma processAnnot_typesOnly (cat : List (String × Option String)) (i : ℕ) (ph : ℚ)
    (st : LoopState) (a : Annot) (h : typesOnlyWithWidgets st) :
    typesOnlyWithWidgets (processAnnot cat i ph st a) := by
  cases hn : annotName a with
  | none =>
    rw [processAnnot_none cat i ph st a hn]
    exact h
  | some fname =>
    rw [processAnnot_some cat i ph st a fname hn]
    intro n hw
    by_cases he : n = fname
    · subst he
      simp at hw
    · simp only [if_neg he] at hw ⊢
      exact h n hw

/-- Helper: the annotation fold preserves the invariant. -/
lemma foldl_typesOnly (cat : List (String × Option String)) (i : ℕ) (ph : ℚ) :
    ∀ (l : List Annot) (st : LoopState), typesOnlyWithWidgets st →
      typesOnlyWithWidgets (l.foldl (processAnnot cat i ph) st)
  | [], _, h => h
  | a :: l, st, h =>
    foldl_typesOnly cat i ph l (processAnnot cat i ph st a)
      (processAnnot_typesOnly cat i ph st a h)

/-- Helper: the page loop preserves the invariant. -/
lemma processPagesAux_typesOnly (cat : List (String × Option String)) :
    ∀ (i : ℕ) (ps : List Page) (s : DocState), typesOnlyWithWidgets s.st →
      typesOnlyWithWidgets (processPagesAux cat i ps s).st
  | _, [], _, h => h
  | i, p :: ps, s, h =>
    processPagesAux_typesOnly cat (i + 1) ps
      ⟨s.metrics ++ [(i, pageDims p)],
       p.annots.foldl (processAnnot cat i (pageDims p).height) s.st⟩
      (foldl_typesOnly cat i (pageDims p).height p.annots s.st h)

/-- Helper: the loop state of a whole document satisfies the invariant. -/
lemma processDoc_typesOnly (doc : Document) : typesOnlyWithWidgets (processDoc doc).st :=
  processPagesAux_typesOnly _ 1 doc.pages initDocState (fun _ _ => rfl)

/-- C1: rect resolution is a total function: a rect of exactly four numeric
entries resolves to the four corner points taken from the input coordinates
exactly (pre-rounding), with width = r - l and height = t - b; an absent rect
or a rect of wrong arity resolves to the RectInfo with all four corners null
and width and height null. -/
theorem resolve_rect_total_spec :
    (∀ l b r t : ℚ,
      _resolve_rect (some [some l, some b, some r, some t]) =
        { top_left := ⟨some l, some t⟩, top_right := ⟨some r, some t⟩,
          bottom_left := ⟨some l, some b⟩, bottom_right := ⟨some r, some b⟩,
          width := some (r - l), height := some (t - b) }) ∧
    _resolve_rect none = nullRectInfo ∧
    (∀ r : PyRect, r.length ≠ 4 → _resolve_rect (some r) = nullRectInfo) :=
  ⟨fun _ _ _ _ => rfl, rfl, resolve_rect_wrong_arity⟩

/-- Witness for C1 at a concrete wrong-arity rect. -/
theorem resolve_rect_total_spec_witness :
    ([none, none, none] : PyRect).length ≠ 4 ∧
      _resolve_rect (some ([none, none, none] : PyRect)) = nullRectInfo :=
  ⟨by decide, resolve_rect_total_spec.2.2 [none, none, none] (by decide)⟩

/-- C5: the operation is all-or-nothing with errors absorbed: a missing source
file and any other parse failure both yield the empty record list instead of
an escaping exception, and a document with zero pages yields the empty record
list as a successful result before the annotation loop is reached. -/
theorem failure_semantics_spec :
    get_form_field_positions PdfSource.notFound = [] ∧
    (∀ msg, get_form_field_positions (PdfSource.parseError msg) = []) ∧
    (∀ doc, doc.pages = [] → get_form_field_positions (PdfSource.ok doc) = []) :=
  ⟨rfl, fun _ => rfl, fun _ h => by simp [get_form_field_positions, fieldPositions, h]⟩

/-- Witness for C5 at a zero-page document with a non-empty field catalog. -/
theorem failure_semantics_spec_witness :
    (Document.mk [("A", some "/Tx")] []).pages = [] ∧
      get_form_field_positions (PdfSource.ok (Document.mk [("A", some "/Tx")] [])) = [] :=
  ⟨rfl, failure_semantics_spec.2.2 (Document.mk [("A", some "/Tx")] []) rfl⟩

/-- C9: the displayed field type maps the raw code through the fixed lookup
table (Tx to text, Sig to signature, Btn to check, Ch to choice, Rd to radio),
codes absent from the table pass through unchanged, a null code yields null,
and every output record's field_type is exactly this map applied to the
resolved code of its name. -/
theorem field_type_display_spec :
    fieldTypeMapGet (some "Tx") = some "text" ∧
    fieldTypeMapGet (some "Sig") = some "signature" ∧
    fieldTypeMapGet (some "Btn") = some "check" ∧
    fieldTypeMapGet (some "Ch") = some "choice" ∧
    fieldTypeMapGet (some "Rd") = some "radio" ∧
    fieldTypeMapGet none = none ∧
    (∀ s, FIELD_TYPE_MAP.lookup s = none → fieldTypeMapGet (some s) = some s) ∧
    (∀ doc r, r ∈ fieldPositions doc →
      r.field_type = fieldTypeMapGet ((processDoc doc).st.fieldTypes r.name)) := by
  refine ⟨by decide, by decide, by decide, by decide, by decide, rfl, ?_, ?_⟩
  · intro s h
    simp [fieldTypeMapGet, h]
  · intro doc r hr
    obtain ⟨-, h⟩ := mem_fieldPositions doc r hr
    have hfty :
        (mkRecord (processDoc doc).metrics (processDoc doc).st.fieldTypes
            (processDoc doc).st.widgets r.name).field_type =
          fieldTypeMapGet ((processDoc doc).st.fieldTypes r.name) := rfl
    rw [← h] at hfty
    exact hfty

/-- Witness for C9 at the unknown code Foo. -/
theorem field_type_display_spec_witness :
    FIELD_TYPE_MAP.lookup "Foo" = none ∧ fieldTypeMapGet (some "Foo") = some "Foo" :=
  ⟨by decide, field_type_display_spec.2.2.2.2.2.2.1 "Foo" (by decide)⟩

/-- C10: presence of a rect is judged by truthiness, not validity: a truthy
rect of wrong arity yields a widget whose boundingBox is the all-null RectInfo
(not null), whose position is the all-null point, whose size has null width
and height, and, when the page height is known, a non-null flutterConfig whose
x, y, width and height are all null. -/
theorem truthy_malformed_rect_spec (i : ℕ) (h : ℚ) (rect : PyRect)
    (hne : rect ≠ []) (hlen : rect.length ≠ 4) :
    mkWidget i (some rect) (_resolve_rect (some rect)) (some h) =
      { page := some i
        boundingBox := some nullRectInfo
        position := some nullPoint
        size := some ⟨none, none⟩
        flutterConfig := some
          { pageIndex := i - 1, x := none, y := none, width := none, height := none } } := by
  have hri := resolve_rect_wrong_arity rect hlen
  have hb : rectTruthy (some rect) = true := by
    simp [rectTruthy, hne]
  simp [mkWidget, hri, hb, nullRectInfo, nullPoint, _format_number]

/-- Witness for C10 at a concrete three-entry rect on a known page height. -/
theorem truthy_malformed_rect_spec_witness :
    ([none, none, none] : PyRect) ≠ [] ∧
      ([none, none, none] : PyRect).length ≠ 4 ∧
      mkWidget 1 (some ([none, none, none] : PyRect))
          (_resolve_rect (some ([none, none, none] : PyRect))) (some 792) =
        { page := some 1
          boundingBox := some nullRectInfo
          position := some nullPoint
          size := some ⟨none, none⟩
          flutterConfig := some
            { pageIndex := 0, x := none, y := none, width := none, height := none } } :=
  ⟨by decide, by decide,
    truthy_malformed_rect_spec 1 792 [none, none, none] (by decide) (by decide)⟩

/-- C2: flutterConfig is present exactly when the widget has a present
(truthy) rect and the page height is known; when present it carries the
0-based page index, x equal to the rounded bottom-left x, width and height
copied from the RectInfo and rounded, and a y component equal to the rounded
difference of the page height and the top-left y whenever both are non-null,
null otherwise. -/
theorem flutterConfig_spec (i : ℕ) (rect : Option PyRect) (ri : RectInfo) (ph : Option ℚ) :
    ((mkWidget i rect ri ph).flutterConfig ≠ none ↔ rectTruthy rect = true ∧ ph ≠ none) ∧
    ∀ fc, (mkWidget i rect ri ph).flutterConfig = some fc →
      fc.pageIndex = i - 1 ∧
      fc.x = _format_number ri.bottom_left.x ∧
      fc.width = _format_number ri.width ∧
      fc.height = _format_number ri.height ∧
      (∀ ty h, ri.top_left.y = some ty → ph = some h → fc.y = some (round3 (h - ty))) ∧
      ((ri.top_left.y = none ∨ ph = none) → fc.y = none) := by
  constructor
  · cases hb : rectTruthy rect <;> cases hph : ph <;> simp [mkWidget, hb]
  · intro fc hfc
    cases hb : rectTruthy rect with
    | false => simp [mkWidget, hb] at hfc
    | true =>
      cases hph : ph with
      | none =>
        rw [hph] at hfc
        simp [mkWidget, hb] at hfc
      | some phv =>
        rw [hph] at hfc
        simp only [mkWidget, hb, Option.isSome_some, Bool.and_true, if_true,
          Option.some.injEq] at hfc
        subst hfc
        refine ⟨rfl, rfl, rfl, rfl, ?_, ?_⟩
        · intro ty h hty hh
          injection hh with hh
          subst hh
          simp only [hty]
        · intro hcase
          rcases hcase with hty | hphn
          · simp only [hty]
          · exact absurd hphn (by simp)

/-- Witness for C2: a truthy rect with all-null resolved info on a known page
height yields a present flutterConfig. -/
theorem flutterConfig_spec_witness :
    rectTruthy (some ([none, none, none] : PyRect)) = true ∧
      (mkWidget 1 (some ([none, none, none] : PyRect)) nullRectInfo
          (some 792)).flutterConfig ≠ none :=
  ⟨by decide,
    (flutterConfig_spec 1 (some [none, none, none]) nullRectInfo (some 792)).1.mpr
      ⟨by decide, by simp⟩⟩

/-- C3: every name of the emitted universe yields a record; its geometry comes
from the first widget of the widget sequence of that name (page-then-annotation
order) when the sequence is non-empty, and from the synthetic empty widget
otherwise, so a catalog-only field is still emitted with null page and all
geometry fields null. -/
theorem representative_widget_spec (doc : Document) (hp : doc.pages ≠ []) (n : String)
    (hn : n ∈ (catalogOf doc.rawFields).map Prod.fst ∨ n ∈ (processDoc doc).st.widgetKeys) :
    ∃ r, r ∈ fieldPositions doc ∧ r.name = n ∧
      (∀ w ws, (processDoc doc).st.widgets n = w :: ws →
        r.page = w.page ∧
        r.page_size = (w.page.bind (metricsLookup (processDoc doc).metrics)).map roundDims ∧
        r.bounding_box = w.boundingBox.map roundRectInfo ∧
        r.position = w.position.map roundPoint ∧
        r.size = w.size.map roundSize) ∧
      ((processDoc doc).st.widgets n = [] →
        r.page = none ∧ r.page_size = none ∧ r.bounding_box = none ∧
        r.position = none ∧ r.size = none) := by
  refine ⟨mkRecord (processDoc doc).metrics (processDoc doc).st.fieldTypes
      (processDoc doc).st.widgets n, ?_, rfl, ?_, ?_⟩
  · rw [fieldPositions_eq doc hp]
    exact List.mem_map_of_mem _ ((mem_sortedNames _ _ n).mpr hn)
  · intro w ws hw
    refine ⟨?_, ?_, ?_, ?_, ?_⟩ <;> simp [mkRecord, hw]
  · intro hw
    refine ⟨?_, ?_, ?_, ?_, ?_⟩ <;> simp [mkRecord, hw, emptyWidget]

/-- Witness for C3 at a catalog-only one-page document. -/
theorem representative_widget_spec_witness :
    docCatalogOnly.pages ≠ [] ∧
      ∃ r, r ∈ fieldPositions docCatalogOnly ∧ r.name = "A" ∧
        (∀ w ws, (processDoc docCatalogOnly).st.widgets "A" = w :: ws →
          r.page = w.page ∧
          r.page_size =
            (w.page.bind (metricsLookup (processDoc docCatalogOnly).metrics)).map roundDims ∧
          r.bounding_box = w.boundingBox.map roundRectInfo ∧
          r.position = w.position.map roundPoint ∧
          r.size = w.size.map roundSize) ∧
        ((processDoc docCatalogOnly).st.widgets "A" = [] →
          r.page = none ∧ r.page_size = none ∧ r.bounding_box = none ∧
          r.position = none ∧ r.size = none) :=
  ⟨by decide, representative_widget_spec docCatalogOnly (by decide) "A" (Or.inl (by decide))⟩

/-- C4 counterexample: on a zero-page document with a catalog entry the code
returns before aggregation, so no record is emitted at all although the name
universe of catalog keys and widget keys is non-empty. -/
theorem output_names_zero_page_cex :
    "A" ∈ (catalogOf docZeroPages.rawFields).map Prod.fst ∧
      fieldPositions docZeroPages = [] :=
  ⟨by decide, rfl⟩

/-- C4 amended: for every document with at least one page, the emitted list
has exactly one record per name in the union of the catalog keys and the
widget-map keys: the emitted names are duplicate-free, sorted ascending, and
range over exactly that union. -/
theorem output_names_spec (doc : Document) (hp : doc.pages ≠ []) :
    ((fieldPositions doc).map (fun r => r.name)).Nodup ∧
    List.Sorted (· ≤ ·) ((fieldPositions doc).map (fun r => r.name)) ∧
    ∀ n, n ∈ (fieldPositions doc).map (fun r => r.name) ↔
      (n ∈ (catalogOf doc.rawFields).map Prod.fst ∨ n ∈ (processDoc doc).st.widgetKeys) := by
  rw [fieldPositions_map_name doc hp]
  exact ⟨sortedNames_nodup _ _, sortedNames_sorted _ _, fun n => mem_sortedNames _ _ n⟩

/-- Witness for C4 amended at a one-page catalog-only document. -/
theorem output_names_spec_witness :
    docCatalogOnly.pages ≠ [] ∧
      ((fieldPositions docCatalogOnly).map (fun r => r.name)).Nodup ∧
      List.Sorted (· ≤ ·) ((fieldPositions docCatalogOnly).map (fun r => r.name)) ∧
      ∀ n, n ∈ (fieldPositions docCatalogOnly).map (fun r => r.name) ↔
        (n ∈ (catalogOf docCatalogOnly.rawFields).map Prod.fst ∨
          n ∈ (processDoc docCatalogOnly).st.widgetKeys) :=
  ⟨by decide, output_names_spec docCatalogOnly (by decide)⟩

/-- C6 counterexample: the first annotation of field f resolves its type to
text; a second annotation of the same field whose type sources are all absent
overwrites it, so the emitted field_type is null, not the first resolution. -/
theorem field_type_overwrite_cex :
    (fieldPositions docTxFirst).map (fun r => r.field_type) = [some "text"] ∧
      (fieldPositions docTxThenBare).map (fun r => r.field_type) = [none] :=
  ⟨by decide, by decide⟩

/-- C6 amended: the per-name field type is recomputed by every widget of that
name, last write wins: each processed annotation unconditionally sets the type
from its own or parent code with catalog fallback, regardless of the previous
value, so a later widget whose sources are all absent overwrites an
already-resolved non-null type with null. -/
theorem field_type_last_write (cat : List (String × Option String)) (i : ℕ) (ph : ℚ)
    (st : LoopState) (a : Annot) (fname : String) (h : annotName a = some fname) :
    (processAnnot cat i ph st a).fieldTypes fname =
      _normalise_name (pyOrStr (parentDict a).FT (catalogFT cat fname)) := by
  rw [processAnnot_some cat i ph st a fname h]
  simp [widgetType]

/-- Witness for C6 amended: processing a bare widget over a state that had
already resolved the type of field f. -/
theorem field_type_last_write_witness :
    annotName annotBare = some "f" ∧
      (processAnnot [] 1 0
          (LoopState.mk (fun _ => []) (fun _ => some "Tx") ["f"]) annotBare).fieldTypes "f" =
        _normalise_name (pyOrStr (parentDict annotBare).FT (catalogFT [] "f")) :=
  ⟨by decide,
    field_type_last_write [] 1 0
      (LoopState.mk (fun _ => []) (fun _ => some "Tx") ["f"]) annotBare "f" (by decide)⟩

/-- C7 counterexample: an annotation whose only name is the bare slash marker
normalizes to the empty name, which by the claim would make it skipped
entirely; the code still processes it and emits a record under the empty
name. -/
theorem skip_empty_name_cex :
    annotName annotSlash = some "" ∧
      (fieldPositions docSlash).map (fun r => r.name) = [""] :=
  ⟨by decide, by decide⟩

/-- C7 amended: the effective field name object is the annotation name when
truthy (present and non-empty), else the parent name; the annotation is
skipped only when that object is absent (None), so a present name normalizing
to the empty string is still processed, under the empty name. -/
theorem effective_name_spec (a : Annot) :
    (strTruthy a.own.T = true → annotNameObj a = a.own.T) ∧
    (strTruthy a.own.T = false → annotNameObj a = a.parent.bind (fun p => p.T)) ∧
    (annotName a = none ↔ annotNameObj a = none) ∧
    (∀ cat i ph st, annotName a = none → processAnnot cat i ph st a = st) ∧
    (∀ cat i ph st fname, annotName a = some fname →
      (processAnnot cat i ph st a).widgets fname =
        st.widgets fname ++
          [mkWidget i (effRect a) (_resolve_rect (effRect a)) (some ph)]) := by
  refine ⟨?_, ?_, ?_, ?_, ?_⟩
  · intro h
    simp [annotNameObj, pyOrStr, h]
  · intro h
    simp [annotNameObj, pyOrStr, h]
  · unfold annotName
    cases hobj : annotNameObj a with
    | none => simp [_normalise_name]
    | some s => simp [_normalise_name]
  · intro cat i ph st h
    exact processAnnot_none cat i ph st a h
  · intro cat i ph st fname h
    rw [processAnnot_some cat i ph st a fname h]
    simp

/-- Witness for C7 amended: the slash-named annotation is processed under the
empty name. -/
theorem effective_name_spec_witness :
    annotName annotSlash = some "" ∧
      (processAnnot [] 1 0 initState annotSlash).widgets "" =
        initState.widgets "" ++
          [mkWidget 1 (effRect annotSlash) (_resolve_rect (effRect annotSlash)) (some 0)] :=
  ⟨by decide,
    (effective_name_spec annotSlash).2.2.2.2 [] 1 0 initState "" (by decide)⟩

/-- C8 counterexample: a field present in the catalog with type code Tx but
with no annotations is emitted with a null field_type, not with text. -/
theorem catalog_only_type_cex :
    (fieldPositions docCatalogOnly).map (fun r => (r.name, r.field_type)) = [("A", none)] := by
  decide

/-- C8 amended: a catalog type code reaches the output only through widget
processing: a processed annotation with no own or parent type code stores the
catalog code for its name, while a field that has no widgets at all always
gets a null field_type, even when its catalog entry carries a type code. -/
theorem catalog_fallback_spec :
    (∀ cat i ph st a fname, annotName a = some fname →
      strTruthy (parentDict a).FT = false →
      (processAnnot cat i ph st a).fieldTypes fname =
        _normalise_name (catalogFT cat fname)) ∧
    (∀ doc r, r ∈ fieldPositions doc → (processDoc doc).st.widgets r.name = [] →
      r.field_type = none) := by
  constructor
  · intro cat i ph st a fname h hft
    rw [processAnnot_some cat i ph st a fname h]
    simp [widgetType, pyOrStr, hft]
  · intro doc r hr hw
    obtain ⟨-, heq⟩ := mem_fieldPositions doc r hr
    have hty := processDoc_typesOnly doc r.name hw
    have hfty :
        (mkRecord (processDoc doc).metrics (processDoc doc).st.fieldTypes
            (processDoc doc).st.widgets r.name).field_type =
          fieldTypeMapGet ((processDoc doc).st.fieldTypes r.name) := rfl
    rw [← heq] at hfty
    rw [hfty, hty]
    rfl

/-- Witness for C8 amended: the catalog fallback at a concrete annotation, and
the catalog-only record of a concrete document. -/
theorem catalog_fallback_spec_witness :
    annotName annotBare = some "f" ∧
      (processAnnot [("f", some "/Btn")] 1 0 initState annotBare).fieldTypes "f" =
        _normalise_name (catalogFT [("f", some "/Btn")] "f") ∧
      (FieldRecord.mk "A" none none none none none none) ∈ fieldPositions docCatalogOnly ∧
      (FieldRecord.mk "A" none none none none none none).field_type = none :=
  ⟨by decide,
    catalog_fallback_spec.1 [("f", some "/Btn")] 1 0 initState annotBare "f"
      (by decide) (by decide),
    by decide,
    catalog_fallback_spec.2 docCatalogOnly (FieldRecord.mk "A" none none none none none none)
      (by decide) (by decide)⟩
